import Mathlib

/-!
Verification development for the document harvesting & structured-extraction
pipeline (email_parsing_agent.py, rfq_agent.py, fileparser.py).

The Python source is shallowly embedded: pure functions become Lean
functions, the stateful harvesting run becomes explicit state passing over a
file-store / summary-store value, fallible code returns `Option` / `Except`.
Strings are modelled over their character lists; Python's `str.lower`,
`str.strip` and the regex character classes are modelled at ASCII level
(the subjects and patterns of the source are ASCII).  Python floats are
modelled as exact rationals; the MD5 digest is modelled as an injective
digest function (content itself), which matches the source's use of the
digest purely as an equality test on contents.
-/

set_option autoImplicit false

namespace StreamlitLegacy

/-- ASCII model of Python `str.lower` on a single character. -/
def pyLowerChar (c : Char) : Char :=
  if 'A' ≤ c ∧ c ≤ 'Z' then Char.ofNat (c.toNat + 32) else c

/-- ASCII model of Python `str.lower`. -/
def pyLower (s : String) : String :=
  String.mk (s.data.map pyLowerChar)

/-- ASCII model of Python whitespace (the `\s` class and `str.strip`):
space, tab, newline, carriage return, form feed, vertical tab. -/
def isSpacePy (c : Char) : Bool :=
  c = ' ' || c = '\t' || c = '\n' || c = '\r' || c = '\x0c' || c = '\x0b'

/-- Python `str.strip` on a character list. -/
def pyStripList (cs : List Char) : List Char :=
  ((cs.dropWhile isSpacePy).reverse.dropWhile isSpacePy).reverse

/-- Python `str.strip`. -/
def pyStrip (s : String) : String :=
  String.mk (pyStripList s.data)

/-- Python regex `\d` (ASCII model). -/
def isDigitPy (c : Char) : Bool :=
  '0' ≤ c && c ≤ '9'

/-- Python regex `\w` (ASCII model): letters, digits, underscore. -/
def isWordPy (c : Char) : Bool :=
  ('a' ≤ c && c ≤ 'z') || ('A' ≤ c && c ≤ 'Z') || isDigitPy c || c = '_'

/-! ## Identifier Extractor (EmailParsingAgent.extract_indent_id)

The eight subject patterns of `EmailParsingAgent.indent_patterns` are
regular expressions built from literal characters, `\s*`, an optional
character (`:?`, `#?`), an optional literal group (`(?:uest)?`), a word
boundary `\b`, and one trailing capture group `(\d+)`.  They are embedded
as element lists and matched by a greedy left-to-right matcher.  For these
particular patterns greedy matching without backtracking coincides with
Python `re.search` semantics, because no two consecutive consumers can
accept the same character (`\s*` never eats a digit, `:`/`#` are neither
whitespace nor digits, the optional `uest` group is followed by `\s*id`
which cannot start with `u`). -/

/-- One element of an embedded subject pattern. -/
inductive RE where
  /-- a literal character -/
  | lit (c : Char)
  /-- the regex `\s*` -/
  | ws
  /-- an optional literal character, `c?` -/
  | optChar (c : Char)
  /-- an optional literal group, `(?:s)?` -/
  | optStr (s : List Char)
  /-- the word boundary `\b` -/
  | wordB
  /-- the trailing capture group `(\d+)` -/
  | digits
deriving DecidableEq

/-- Literal characters of a string as pattern elements. -/
def lits (s : String) : List RE :=
  s.data.map RE.lit

/-- Greedy matcher for an embedded pattern at the head of `cs`.
`prev` is the character just before the match position (for `\b`).
Returns the text of the capture group on success. -/
def matchPat : List RE → Option Char → List Char → Option (List Char)
  | [], _, _ => some []
  | RE.lit c :: rest, _, cs =>
    match cs with
    | [] => none
    | x :: xs => if x = c then matchPat rest (some x) xs else none
  | RE.ws :: rest, prev, cs =>
    let sp := cs.takeWhile isSpacePy
    matchPat rest (sp.getLast? <|> prev) (cs.drop sp.length)
  | RE.optChar c :: rest, prev, cs =>
    match cs with
    | [] => matchPat rest prev []
    | x :: xs => if x = c then matchPat rest (some x) xs else matchPat rest prev cs
  | RE.optStr s :: rest, prev, cs =>
    if s.isPrefixOf cs then matchPat rest (s.getLast? <|> prev) (cs.drop s.length)
    else matchPat rest prev cs
  | RE.wordB :: rest, prev, cs =>
    let pw := match prev with | none => false | some c => isWordPy c
    let cw := match cs with | [] => false | x :: _ => isWordPy x
    if pw ≠ cw then matchPat rest prev cs else none
  | RE.digits :: rest, prev, cs =>
    let ds := cs.takeWhile isDigitPy
    if ds.isEmpty then none
    else (matchPat rest (ds.getLast? <|> prev) (cs.drop ds.length)).map (fun cap => ds ++ cap)

/-- Model of `re.search`: try the pattern at every start position, leftmost
match wins; returns capture group 1. -/
def reSearchFrom (p : List RE) : Option Char → List Char → Option (List Char)
  | prev, cs =>
    match matchPat p prev cs with
    | some cap => some cap
    | none =>
      match cs with
      | [] => none
      | x :: xs => reSearchFrom p (some x) xs

/-- `re.search(pattern, s).group(1)` for an embedded pattern. -/
def reSearchGroup (p : List RE) (s : List Char) : Option String :=
  (reSearchFrom p none s).map String.mk

/-- `indent_patterns` of `EmailParsingAgent.__init__`, in source order. -/
def indent_patterns : List (List RE) :=
  [ lits "indent" ++ [RE.ws] ++ lits "id" ++ [RE.ws, RE.optChar ':', RE.ws, RE.digits],
    lits "indent" ++ [RE.ws, RE.optChar '#', RE.ws, RE.digits],
    [RE.wordB] ++ lits "id" ++ [RE.ws, RE.optChar ':', RE.ws, RE.digits],
    lits "req" ++ [RE.optStr "uest".data, RE.ws] ++ lits "id" ++ [RE.ws, RE.optChar ':', RE.ws, RE.digits],
    lits "requirement" ++ [RE.ws] ++ lits "id" ++ [RE.ws, RE.optChar ':', RE.ws, RE.digits],
    lits "rfq" ++ [RE.ws, RE.optChar ':', RE.ws, RE.digits],
    lits "quotation" ++ [RE.ws, RE.optChar ':', RE.ws, RE.digits],
    lits "quote" ++ [RE.ws, RE.optChar ':', RE.ws, RE.digits] ]

/-- The normalisation applied to the subject before pattern matching:
`subject.lower().strip()`. -/
def subjectNorm (subject : String) : List Char :=
  pyStripList (pyLower subject).data

/-- First pattern that matches wins (the `for` loop of
`extract_indent_id`). -/
def firstPatternMatch : List (List RE) → List Char → Option String
  | [], _ => none
  | p :: ps, cs =>
    match reSearchGroup p cs with
    | some g => some g
    | none => firstPatternMatch ps cs

/-- `EmailParsingAgent.extract_indent_id`: `if not subject: return None`,
otherwise lowercase, strip, and try the patterns in order. -/
def extract_indent_id (subject : String) : Option String :=
  if subject = "" then none
  else firstPatternMatch indent_patterns (subjectNorm subject)

/-! ## Format-Aware Text Extractor (fileparser.py, FileParser) -/

/-- The supported file-type sets of `FileParser.__init__`, depending on
whether the optional PyMuPDF dependency is importable. -/
def supported_extensions (hasPyMuPDF : Bool) : List String :=
  if hasPyMuPDF then [".txt", ".pdf", ".xlsx", ".xls", ".docx", ".csv", ".json"]
  else [".txt", ".xlsx", ".xls", ".docx", ".csv", ".json"]

/-- `quote_file_extensions` of `EmailParsingAgent.__init__`: the attachment
filter of the Mailbox Harvester. -/
def quote_file_extensions : List String :=
  [".pdf", ".xlsx", ".xls", ".docx", ".doc", ".csv", ".txt"]

/-- `pathlib.Path(name).suffix`: the final dot-suffix of the name, empty
unless the last dot sits strictly inside the name. -/
def pathSuffix (name : String) : String :=
  let cs := name.data
  match cs.reverse.findIdx? (· = '.') with
  | none => ""
  | some k =>
    let i := cs.length - 1 - k
    if 0 < i ∧ i < cs.length - 1 then String.mk (cs.drop i) else ""

/-- The suffix as the source compares it: `file_path.suffix.lower()`. -/
def pathSuffixLower (name : String) : String :=
  pyLower (pathSuffix name)

/-- The facts about an on-disk file that `FileParser._validate_file_async`
inspects. -/
structure FileInfo where
  name : String
  size : Nat
  onDisk : Bool
  readable : Bool
deriving DecidableEq

/-- Typed classification of the exceptions raised by
`FileParser._validate_file_async`, in source order (`FileNotFoundError`,
then the three `FileParsingError` variants). -/
inductive FileErr where
  | fileNotFound
  | fileTooLarge
  | unsupportedType
  | permissionDenied
deriving DecidableEq

/-- `FileParser._validate_file_async`: existence, then size, then
extension, then readability; `none` means validation passed. -/
def validateFile (hasPyMuPDF : Bool) (maxFileSize : Nat) (f : FileInfo) : Option FileErr :=
  if f.onDisk = false then some .fileNotFound
  else if maxFileSize < f.size then some .fileTooLarge
  else if pathSuffixLower f.name ∈ supported_extensions hasPyMuPDF then
    (if f.readable = false then some .permissionDenied else none)
  else some .unsupportedType

/-- Result dictionary of `FileParser.parse_file_async`, restricted to the
fields the claims inspect; `verror` carries the typed validation failure
when the "File validation failed" branch was taken. -/
structure FPResult where
  success : Bool
  verror : Option FileErr
  raw_text : String
deriving DecidableEq

/-- `FileParser.parse_file_async`: validation runs first; a validation
failure is *returned* as a `success=false` result (recorded, not raised),
otherwise the format-specific parser runs.  `parseBody` abstracts the
per-format parsers (`_parse_txt_async` …); the `Bool` in the result
records whether any parse attempt was made. -/
def parse_file_async (hasPyMuPDF : Bool) (maxFileSize : Nat)
    (parseBody : FileInfo → FPResult) (f : FileInfo) : FPResult × Bool :=
  match validateFile hasPyMuPDF maxFileSize f with
  | some e => ({ success := false, verror := some e, raw_text := "" }, false)
  | none => (parseBody f, true)

/-- `EmailParsingAgent.process_quote_file` at the level the claims need: a
failed parse, or empty extracted text, yields a failed record without
invoking the structured-field generator.  `genSuccess` abstracts the
generator's verdict; the result is (record success, generator ran). -/
def process_quote_file_model (genSuccess : Bool) (parsed : FPResult) : Bool × Bool :=
  if parsed.success = false then (false, false)
  else if pyStrip parsed.raw_text = "" then (false, false)
  else (genSuccess, true)

/-- The attachment filter of `EmailParsingAgent._get_attachments`:
an attachment is kept iff `Path(filename).suffix.lower()` is in
`quote_file_extensions`. -/
def attachmentAccepted (filename : String) : Prop :=
  pathSuffixLower filename ∈ quote_file_extensions

instance (filename : String) : Decidable (attachmentAccepted filename) := by
  unfold attachmentAccepted
  infer_instance

/-! ## Attachment Store (EmailParsingAgent.save_attachment)

The identifier's bucket `quotes_storage/by_indent_id/indent_<id>/` is
modelled as an association list from filename to byte content.  MD5 is
used by the source only as an equality test on contents, so the digest is
modelled as the injective function returning the content itself. -/

/-- An email attachment (`EmailAttachment`), restricted to the fields the
harvesting path reads. -/
structure Attachment where
  filename : String
  content : List Nat
deriving DecidableEq

/-- A directory: filename ↦ byte content. -/
def FileStore := List (String × List Nat)

instance : DecidableEq FileStore := by
  unfold FileStore
  infer_instance

/-- Digest model for `hashlib.md5(...).hexdigest()`: an injective digest,
faithful to the source's use of MD5 as a content-equality test. -/
def md5Hex (content : List Nat) : List Nat := content

/-- Look a filename up in a directory (`Path.exists` + `open(...).read()`). -/
def fsLookup (dir : FileStore) (name : String) : Option (List Nat) :=
  match dir with
  | [] => none
  | (k, v) :: rest => if k = name then some v else fsLookup rest name

/-- Write a file (`open(path, 'wb').write`): overwrite or append. -/
def fsWrite (dir : FileStore) (name : String) (content : List Nat) : FileStore :=
  match dir with
  | [] => [(name, content)]
  | (k, v) :: rest => if k = name then (k, content) :: rest else (k, v) :: fsWrite rest name content

/-- Path of a file inside the identifier's bucket. -/
def storagePath (indentId name : String) : String :=
  "quotes_storage/by_indent_id/indent_" ++ indentId ++ "/" ++ name

/-- `EmailParsingAgent.save_attachment`: hash-compare against an existing
file of the exact name; equal hash ⇒ return existing path without writing;
different hash ⇒ write under a timestamp-prefixed name (`now` is
`datetime.now().strftime(...)`); no existing file ⇒ write under the
canonical name.  Returns the stored path and the updated directory. -/
def save_attachment (dir : FileStore) (a : Attachment) (indentId now : String) :
    String × FileStore :=
  match fsLookup dir a.filename with
  | some existing =>
    if md5Hex a.content = md5Hex existing then
      (storagePath indentId a.filename, dir)
    else
      let fn := now ++ "_" ++ a.filename
      (storagePath indentId fn, fsWrite dir fn a.content)
  | none =>
    (storagePath indentId a.filename, fsWrite dir a.filename a.content)

/-! ## Mailbox Harvester (EmailParsingAgent.process_emails_by_indent)

The run is modelled from the point where the per-identifier email list has
been fetched: the mailbox state is the list of fetched emails (IMAP search
and RFC822 parsing abstracted away), the summary store is the content of
`summary.json` for the identifier, the attachment store is the bucket
directory.  `process_quote_file` (file parsing + remote generation) is
abstracted as a function `extract` from saved path and email body to an
opaque quote-data payload; the run records every path it extracts so that
"extraction is skipped" is an inspectable fact. -/

/-- An email fetched for the identifier (`QuoteEmail`), with its quote
attachments. -/
structure EmailMsg where
  subject : String
  sender : String
  date : String
  body : String
  attachments : List Attachment
deriving DecidableEq

/-- One entry of the `quotes` list of a stored summary. -/
structure QuoteEntry where
  email_subject : String
  sender : String
  date : String
  filename : String
  saved_path : String
  quote_data : String
deriving DecidableEq

/-- The persisted per-identifier `summary.json`.  `successFlag` is `some
true` only in the early-return summary produced for an empty email list
(the normal summary dictionary has no `success` key). -/
structure Summary where
  indent_id : String
  processed_date : String
  total_emails : Nat
  total_quotes : Nat
  quotes : List QuoteEntry
  successFlag : Option Bool
deriving DecidableEq

/-- The dedup test of `_is_quote_already_processed`: same email subject
and same filename. -/
def quoteMatches (subject filename : String) (q : QuoteEntry) : Bool :=
  q.email_subject = subject ∧ q.filename = filename

/-- `EmailParsingAgent._is_quote_already_processed`: scan the stored
summary's quotes for an entry with the same email subject and filename. -/
def is_quote_already_processed (store : Option Summary) (subject filename : String) :
    Option QuoteEntry :=
  match store with
  | none => none
  | some s => s.quotes.find? (quoteMatches subject filename)

/-- Mutable state threaded through the per-attachment loop. -/
structure RunSt where
  quotes : List QuoteEntry
  files : FileStore
  extracted : List String
deriving DecidableEq

/-- The body of the per-attachment loop of `process_emails_by_indent`:
consult the stored summary; on a hit append the stored entry verbatim
(no save, no extraction); otherwise save the attachment and extract. -/
def processAttachment (extract : String → String → String) (indentId : String)
    (store : Option Summary) (now : String) (e : EmailMsg) (st : RunSt) (a : Attachment) :
    RunSt :=
  match is_quote_already_processed store e.subject a.filename with
  | some q => { st with quotes := st.quotes ++ [q] }
  | none =>
    let sv := save_attachment st.files a indentId now
    let qd := extract sv.1 e.body
    let entry : QuoteEntry :=
      { email_subject := e.subject, sender := e.sender, date := e.date,
        filename := a.filename, saved_path := sv.1, quote_data := qd }
    { quotes := st.quotes ++ [entry], files := sv.2, extracted := st.extracted ++ [sv.1] }

/-- The nested message/attachment loop of `process_emails_by_indent`. -/
def runEmails (extract : String → String → String) (indentId : String)
    (store : Option Summary) (now : String) (emails : List EmailMsg) (st : RunSt) : RunSt :=
  emails.foldl (fun st e => e.attachments.foldl (processAttachment extract indentId store now e) st) st

/-- The early-return summary for an identifier with no matching emails. -/
def emptyIndentSummary (indentId now : String) : Summary :=
  { indent_id := indentId, processed_date := now, total_emails := 0,
    total_quotes := 0, quotes := [], successFlag := some true }

/-- Result of one harvesting run: the returned summary, the summary store
after the run, the bucket directory after the run, and the list of paths
that went through extraction. -/
structure RunResult where
  summary : Summary
  store : Option Summary
  files : FileStore
  extracted : List String
deriving DecidableEq

/-- `EmailParsingAgent.process_emails_by_indent`, from the point where the
emails for the identifier are fetched: empty list ⇒ early return without
touching the summary store; otherwise run the loop, then build and persist
the summary (`now` is the run's `datetime.now().isoformat()`). -/
def process_emails_by_indent (extract : String → String → String) (indentId : String)
    (emails : List EmailMsg) (store : Option Summary) (files : FileStore) (now : String) :
    RunResult :=
  if emails.isEmpty then
    { summary := emptyIndentSummary indentId now, store := store, files := files, extracted := [] }
  else
    let st := runEmails extract indentId store now emails { quotes := [], files := files, extracted := [] }
    let summary : Summary :=
      { indent_id := indentId, processed_date := now, total_emails := emails.length,
        total_quotes := st.quotes.length, quotes := st.quotes, successFlag := none }
    { summary := summary, store := some summary, files := st.files, extracted := st.extracted }

/-- The flattened (message, attachment) pairs of a run, in processing
order. -/
def runPairs (emails : List EmailMsg) : List (EmailMsg × Attachment) :=
  emails.flatMap (fun e => e.attachments.map (fun a => (e, a)))

/-- The dedup key of a loop iteration. -/
def pairKey (p : EmailMsg × Attachment) : String × String :=
  (p.1.subject, p.2.filename)

/-- The dedup key of a stored entry. -/
def entryKey (q : QuoteEntry) : String × String :=
  (q.email_subject, q.filename)

/-- The per-attachment loop expressed over the flattened pair list. -/
def runPairsFold (extract : String → String → String) (indentId : String)
    (store : Option Summary) (now : String) (ps : List (EmailMsg × Attachment)) (st : RunSt) :
    RunSt :=
  ps.foldl (fun st p => processAttachment extract indentId store now p.1 st p.2) st

/-- A mailbox exhibiting the C1 counterexample: two distinct emails with
the same subject and the same attachment filename. -/
def c1CexEmails : List EmailMsg :=
  [ { subject := "q", sender := "s1", date := "d", body := "b",
      attachments := [{ filename := "a.txt", content := [1] }] },
    { subject := "q", sender := "s2", date := "d", body := "b",
      attachments := [{ filename := "a.txt", content := [1] }] } ]

/-- First harvesting run over the counterexample mailbox. -/
def c1CexRun1 : RunResult :=
  process_emails_by_indent (fun _ _ => "x") "7" c1CexEmails none [] "t"

/-- Second harvesting run over the unchanged counterexample mailbox and
the summary produced by the first run, at the same run timestamp. -/
def c1CexRun2 : RunResult :=
  process_emails_by_indent (fun _ _ => "x") "7" c1CexEmails c1CexRun1.store c1CexRun1.files "t"

/-- A mailbox with pairwise-distinct (subject, filename) dedup keys, for
the C1 witness. -/
def c1WitEmails : List EmailMsg :=
  [ { subject := "Indent 7 quote", sender := "s", date := "d", body := "b",
      attachments := [{ filename := "a.txt", content := [1] }, { filename := "b.pdf", content := [2] }] },
    { subject := "Indent 7 revised", sender := "s2", date := "d2", body := "b2",
      attachments := [{ filename := "a.txt", content := [3] }] } ]

/-- First harvesting run over the witness mailbox. -/
def c1WitRun1 : RunResult :=
  process_emails_by_indent (fun _ b => b) "7" c1WitEmails none [] "t"

/-- Second harvesting run over the unchanged witness mailbox. -/
def c1WitRun2 : RunResult :=
  process_emails_by_indent (fun _ b => b) "7" c1WitEmails c1WitRun1.store c1WitRun1.files "t"

/-! ## JSON values and a model of Python json.loads (rfq_agent.py)

Python floats are modelled as exact rationals.  The JSON string escapes
`\uXXXX` and number exponents are not modelled (no reply the claims
quantify over relies on them); everything else follows the stdlib
grammar, including last-wins duplicate object keys. -/

/-- A Python value as it flows through `_parse_and_validate_response`:
`str` is a Python string, `obj` a dict, the rest the other JSON scalars
and containers. -/
inductive Json where
  | null
  | bool (b : Bool)
  | num (q : Rat)
  | str (s : String)
  | arr (elems : List Json)
  | obj (fields : List (String × Json))

/-- JSON structural whitespace. -/
def isSpaceJson (c : Char) : Bool :=
  c = ' ' || c = '\t' || c = '\n' || c = '\r'

/-- Insert a key into an object under construction: a later duplicate key
overwrites the earlier one in place, as when Python builds the dict. -/
def objInsert (kvs : List (String × Json)) (k : String) (v : Json) : List (String × Json) :=
  match kvs with
  | [] => [(k, v)]
  | (k0, v0) :: rest => if k0 = k then (k0, v) :: rest else (k0, v0) :: objInsert rest k v

/-- Dict lookup (first occurrence; keys are unique by construction). -/
def dictLookup (k : String) (kvs : List (String × Json)) : Option Json :=
  match kvs with
  | [] => none
  | (k0, v) :: rest => if k0 = k then some v else dictLookup k rest

/-- The rest of a JSON string literal after the opening quote. -/
def pStringRest (fuel : Nat) (cs : List Char) (acc : List Char) : Option (String × List Char) :=
  match fuel, cs with
  | 0, _ => none
  | _, [] => none
  | fuel + 1, c :: rest =>
    if c = '"' then some (String.mk acc.reverse, rest)
    else if c = '\\' then
      match rest with
      | [] => none
      | e :: rest2 =>
        let esc : Option Char :=
          if e = '"' then some '"'
          else if e = '\\' then some '\\'
          else if e = '/' then some '/'
          else if e = 'n' then some '\n'
          else if e = 't' then some '\t'
          else if e = 'r' then some '\r'
          else if e = 'b' then some '\x08'
          else if e = 'f' then some '\x0c'
          else none
        match esc with
        | some c2 => pStringRest fuel rest2 (c2 :: acc)
        | none => none
    else pStringRest fuel rest (c :: acc)

/-- Value of a digit run. -/
def digitsToNat (ds : List Char) : Nat :=
  ds.foldl (fun n c => n * 10 + (c.toNat - 48)) 0

/-- A JSON number (optional sign, digits, optional fraction). -/
def pNumber (cs : List Char) : Option (Rat × List Char) :=
  let sign := match cs with | '-' :: _ => true | _ => false
  let cs1 := match cs with | '-' :: t => t | _ => cs
  let ids := cs1.takeWhile isDigitPy
  if ids.isEmpty then none
  else
    let cs2 := cs1.drop ids.length
    let intPart : Rat := (digitsToNat ids : Nat)
    match cs2 with
    | '.' :: cs3 =>
      let fds := cs3.takeWhile isDigitPy
      if fds.isEmpty then none
      else
        let q : Rat := intPart + (digitsToNat fds : Rat) / ((10 : Rat) ^ fds.length)
        some ((if sign then -q else q), cs3.drop fds.length)
    | _ => some ((if sign then -intPart else intPart), cs2)

mutual

/-- One JSON value, leading whitespace allowed. -/
def pValue (fuel : Nat) (cs : List Char) : Option (Json × List Char) :=
  match fuel with
  | 0 => none
  | fuel + 1 =>
    match cs.dropWhile isSpaceJson with
    | [] => none
    | c :: rest =>
      if c = '{' then
        match rest.dropWhile isSpaceJson with
        | '}' :: rest2 => some (Json.obj [], rest2)
        | _ => pMembers fuel rest []
      else if c = '[' then
        match rest.dropWhile isSpaceJson with
        | ']' :: rest2 => some (Json.arr [], rest2)
        | _ => pElems fuel rest []
      else if c = '"' then
        (pStringRest (fuel + 1) rest []).map (fun sr => (Json.str sr.1, sr.2))
      else if c = 't' then
        if "rue".data.isPrefixOf rest then some (Json.bool true, rest.drop 3) else none
      else if c = 'f' then
        if "alse".data.isPrefixOf rest then some (Json.bool false, rest.drop 4) else none
      else if c = 'n' then
        if "ull".data.isPrefixOf rest then some (Json.null, rest.drop 3) else none
      else
        (pNumber (c :: rest)).map (fun qr => (Json.num qr.1, qr.2))

/-- Members of an object, from just after `{` or `,`. -/
def pMembers (fuel : Nat) (cs : List Char) (acc : List (String × Json)) :
    Option (Json × List Char) :=
  match fuel with
  | 0 => none
  | fuel + 1 =>
    match cs.dropWhile isSpaceJson with
    | '"' :: rest =>
      match pStringRest (fuel + 1) rest [] with
      | none => none
      | some (k, cs2) =>
        match cs2.dropWhile isSpaceJson with
        | ':' :: cs4 =>
          match pValue fuel cs4 with
          | none => none
          | some (v, cs5) =>
            match cs5.dropWhile isSpaceJson with
            | ',' :: cs7 => pMembers fuel cs7 (objInsert acc k v)
            | '}' :: cs7 => some (Json.obj (objInsert acc k v), cs7)
            | _ => none
        | _ => none
    | _ => none

/-- Elements of an array, from just after `[` or `,`. -/
def pElems (fuel : Nat) (cs : List Char) (acc : List Json) : Option (Json × List Char) :=
  match fuel with
  | 0 => none
  | fuel + 1 =>
    match pValue fuel cs with
    | none => none
    | some (v, cs2) =>
      match cs2.dropWhile isSpaceJson with
      | ',' :: cs4 => pElems fuel cs4 (acc ++ [v])
      | ']' :: cs4 => some (Json.arr (acc ++ [v]), cs4)
      | _ => none

end

/-- `json.loads`: one value, optionally surrounded by whitespace; trailing
non-whitespace is an error. -/
def parseJson (s : String) : Option Json :=
  let cs := s.data
  match pValue (2 * cs.length + 4) cs with
  | some (j, rest) => if rest.dropWhile isSpaceJson = [] then some j else none
  | none => none

/-- The greedy regex scan `re.search(r'\{.*\}', s, re.DOTALL)`: from the
first `\x7b` to the last `\x7d` after it. -/
def braceSpan (cs : List Char) : Option (List Char) :=
  match ((cs.dropWhile (· ≠ '{')).reverse.dropWhile (· ≠ '}')).reverse with
  | '{' :: c :: rest => some ('{' :: c :: rest)
  | _ => none

/-- Strategy 3 of `_extract_json_from_string`: strip, drop a leading
Markdown fence marker and a trailing one, then parse. -/
def stripFences (cs : List Char) : List Char :=
  let c1 := pyStripList cs
  let c2 := if "```json".data.isPrefixOf c1 then c1.drop 7 else c1
  if "```".data.isSuffixOf c2 then c2.take (c2.length - 3) else c2

/-- The error text of the final strategy failure. -/
def jsonParseFailureMsg : String :=
  "Unable to parse JSON from LLM response"

/-- Strategy 3 as the tail of the fallback chain. -/
def fenceStrategy (s : String) : Except String Json :=
  match parseJson (String.mk (pyStripList (stripFences s.data))) with
  | some j => Except.ok j
  | none => Except.error jsonParseFailureMsg

/-- `RFQFieldGenerator._extract_json_from_string`: direct parse, then the
greedy brace-span scan, then fence stripping; the error is the
`ValueError` the source raises when all three fail. -/
def extract_json_from_string (s : String) : Except String Json :=
  match parseJson s with
  | some j => Except.ok j
  | none =>
    match braceSpan s.data with
    | some span =>
      match parseJson (String.mk span) with
      | some j => Except.ok j
      | none => fenceStrategy s
    | none => fenceStrategy s

/-! ## Structured-Field Generator (rfq_agent.py, RFQFieldGenerator)

The pydantic models `LineItem` and `RFQResponse` are embedded as
per-field validators over `Json` values, following pydantic v2 lax-mode
coercions on the JSON value domain: a string field rejects numbers, a
float field accepts numbers and numeric strings, a bool field accepts
booleans, 0/1 and the usual truthy/falsy words, an int field accepts only
integral numbers.  The two `field_validator`s of `LineItem` run first on
string input and model Python `int`/`float` applied after removing
commas.  The text of pydantic's validation-error message is abstracted to
a fixed string (no claim inspects it). -/

/-- `str.replace(",", "")` then Python `int(...)`. -/
def pyIntOfString (s : String) : Option Int :=
  let cs := pyStripList (s.data.filter (· ≠ ','))
  match cs with
  | '-' :: ds =>
    if ds ≠ [] ∧ ds.all isDigitPy then some (-(digitsToNat ds : Int)) else none
  | ds =>
    if ds ≠ [] ∧ ds.all isDigitPy then some ((digitsToNat ds : Int)) else none

/-- Python `float(...)` on a decimal literal. -/
def ratOfString (s : String) : Option Rat :=
  match pNumber (pyStripList s.data) with
  | some (q, []) => some q
  | _ => none

/-- `str.replace(",", "")` then Python `float(...)`. -/
def pyFloatOfString (s : String) : Option Rat :=
  ratOfString (String.mk (s.data.filter (· ≠ ',')))

/-- Validator for `Optional[str]` fields. -/
def vOptStr : Json → Option Json
  | Json.null => some Json.null
  | Json.str s => some (Json.str s)
  | _ => none

/-- Validator for plain `str` fields. -/
def vStr : Json → Option Json
  | Json.str s => some (Json.str s)
  | _ => none

/-- Validator for `float` fields (pydantic lax). -/
def vFloat : Json → Option Rat
  | Json.num q => some q
  | Json.str s => ratOfString s
  | _ => none

/-- Validator for `bool` fields (pydantic lax). -/
def vBool : Json → Option Bool
  | Json.bool b => some b
  | Json.num q => if q = 1 then some true else if q = 0 then some false else none
  | Json.str s =>
    let ls := pyLower s
    if ls ∈ ["true", "t", "yes", "y", "on", "1"] then some true
    else if ls ∈ ["false", "f", "no", "n", "off", "0"] then some false
    else none
  | _ => none

/-- `LineItem.quantity`: the `parse_quantity` validator then
`Optional[int]`. -/
def vQuantity : Json → Option Json
  | Json.null => some Json.null
  | Json.str s => (pyIntOfString s).map (fun n => Json.num (n : Rat))
  | Json.num q => if q.den = 1 then some (Json.num q) else none
  | _ => none

/-- `LineItem.target_price`: the `parse_target_price` validator then
`Optional[float]`. -/
def vTargetPrice : Json → Option Json
  | Json.null => some Json.null
  | Json.str s => (pyFloatOfString s).map Json.num
  | Json.num q => some (Json.num q)
  | _ => none

/-- One `LineItem`: a dict whose known fields validate (extra keys are
ignored, missing fields default to null). -/
def validateLineItem (j : Json) : Option (List (String × Json)) :=
  match j with
  | Json.obj kvs => do
    let pn ← vOptStr ((dictLookup "part_number" kvs).getD Json.null)
    let d ← vOptStr ((dictLookup "description" kvs).getD Json.null)
    let q ← vQuantity ((dictLookup "quantity" kvs).getD Json.null)
    let tp ← vTargetPrice ((dictLookup "target_price" kvs).getD Json.null)
    let cur ← vOptStr ((dictLookup "currency" kvs).getD Json.null)
    pure [("part_number", pn), ("description", d), ("quantity", q),
      ("target_price", tp), ("currency", cur)]
  | _ => none

/-- `list[LineItem]`. -/
def vLineItems : Json → Option Json
  | Json.arr xs => (xs.mapM validateLineItem).map (fun items => Json.arr (items.map Json.obj))
  | _ => none

/-- `list[str]`. -/
def vListStr : Json → Option Json
  | Json.arr xs => (xs.mapM vStr).map Json.arr
  | _ => none

/-- The field names of `RFQResponse`, in declaration order. -/
def rfqFieldNames : List String :=
  ["title", "client_name", "client_email", "client_contact", "client_phone", "rfq_to",
   "delivery_location", "delivery_deadline", "response_due_date", "description",
   "line_items", "requested_documents", "confidence_score", "missing_fields",
   "requires_review", "source_file", "success", "message"]

/-- `RFQResponse()` with its declared defaults, as a dict. -/
def rfqDefaults : List (String × Json) :=
  [("title", Json.null), ("client_name", Json.null), ("client_email", Json.null),
   ("client_contact", Json.null), ("client_phone", Json.null), ("rfq_to", Json.null),
   ("delivery_location", Json.null), ("delivery_deadline", Json.null),
   ("response_due_date", Json.null), ("description", Json.null),
   ("line_items", Json.arr []), ("requested_documents", Json.arr []),
   ("confidence_score", Json.num 0), ("missing_fields", Json.arr []),
   ("requires_review", Json.bool true), ("source_file", Json.str "email-body"),
   ("success", Json.bool true), ("message", Json.str "")]

/-- Validator for a `float` field, with the normalized dumped value. -/
def vFloatJ (j : Json) : Option Json :=
  (vFloat j).map Json.num

/-- Validator for a `bool` field, with the normalized dumped value. -/
def vBoolJ (j : Json) : Option Json :=
  (vBool j).map Json.bool

/-- The declared fields of `RFQResponse` in declaration order: name,
validator, default. -/
def rfqFieldSpecs : List (String × (Json → Option Json) × Json) :=
  [("title", vOptStr, Json.null),
   ("client_name", vOptStr, Json.null),
   ("client_email", vOptStr, Json.null),
   ("client_contact", vOptStr, Json.null),
   ("client_phone", vOptStr, Json.null),
   ("rfq_to", vOptStr, Json.null),
   ("delivery_location", vOptStr, Json.null),
   ("delivery_deadline", vOptStr, Json.null),
   ("response_due_date", vOptStr, Json.null),
   ("description", vOptStr, Json.null),
   ("line_items", vLineItems, Json.arr []),
   ("requested_documents", vListStr, Json.arr []),
   ("confidence_score", vFloatJ, Json.num 0),
   ("missing_fields", vListStr, Json.arr []),
   ("requires_review", vBoolJ, Json.bool true),
   ("source_file", vStr, Json.str "email-body"),
   ("success", vBoolJ, Json.bool true),
   ("message", vStr, Json.str "")]

/-- `RFQResponse(**reply)` then `.dict()`: validate every declared field
(an absent field takes its default, extra reply keys are ignored) and
produce the full normalized dict; `none` is pydantic's
`ValidationError`. -/
def validateRFQ (kvs : List (String × Json)) : Option (List (String × Json)) :=
  rfqFieldSpecs.mapM (fun spec =>
    (spec.2.1 ((dictLookup spec.1 kvs).getD spec.2.2)).map (fun v => (spec.1, v)))

/-- Dict update (alias of `objInsert`, used for attribute assignment). -/
def dictSet (kvs : List (String × Json)) (k : String) (v : Json) : List (String × Json) :=
  objInsert kvs k v

/-- `RFQFieldGenerator._create_error_response`. -/
def create_error_response (error_message : String) : List (String × Json) :=
  [("success", Json.bool false), ("error", Json.str error_message),
   ("confidence_score", Json.num 0), ("requires_review", Json.bool true),
   ("missing_fields", Json.arr [Json.str "all"]), ("source_file", Json.str "unknown")]

/-- Stand-in for `str(e)` of a pydantic `ValidationError` (its text is
inert for every claim). -/
def validationErrMsg : String :=
  "validation error"

/-- `RFQFieldGenerator._create_fallback_response`: start from
`RFQResponse()` defaults; copy every reply field whose name is a model
field (pydantic v2 does not validate plain attribute assignment, so the
raw value is stored; assignment to a non-field name raises and is skipped
by the `try`/`continue`); then stamp source_file/success/message, force
requires_review, and floor confidence_score with Python
`max(0.3, ...)` — which raises `TypeError` when the stored
confidence_score is neither a number nor a bool. -/
def fallbackFill (raw : List (String × Json)) : List (String × Json) :=
  raw.foldl (fun acc kv => if kv.1 ∈ rfqFieldNames then dictSet acc kv.1 kv.2 else acc) rfqDefaults

/-- The four attribute assignments following the copy loop of
`_create_fallback_response`, in source order. -/
def fallbackStamp (f1 : List (String × Json)) (source_file : String) : List (String × Json) :=
  dictSet (dictSet (dictSet (dictSet f1
    "source_file" (Json.str source_file))
    "success" (Json.bool true))
    "message" (Json.str ("RFQ processed with validation warnings: " ++ validationErrMsg)))
    "requires_review" (Json.bool true)

/-- The `max(0.3, fallback.confidence_score)` floor and the result.
Python's `max` compares a stored bool as 0/1 and returns the larger
original object; a stored value that is neither a number nor a bool makes
`max` raise `TypeError`. -/
def create_fallback_response (raw : List (String × Json)) (source_file : String) :
    Except String (List (String × Json)) :=
  match dictLookup "confidence_score" (fallbackStamp (fallbackFill raw) source_file) with
  | some (Json.num q) =>
    Except.ok (dictSet (fallbackStamp (fallbackFill raw) source_file)
      "confidence_score" (Json.num (max (3/10 : Rat) q)))
  | some (Json.bool b) =>
    Except.ok (dictSet (fallbackStamp (fallbackFill raw) source_file)
      "confidence_score"
      (if (3/10 : Rat) ≤ (if b then (1 : Rat) else 0) then Json.bool b else Json.num (3/10)))
  | _ => Except.error "TypeError: max() between float and non-numeric confidence_score"

/-- The stage of `_parse_and_validate_response` after JSON extraction: a
non-dict reply raises `ValueError`; a dict is validated, stamped on
success, and handed to the fallback on `ValidationError`. -/
def validateStage (reply2 : Json) (source_file : String) :
    Except String (List (String × Json)) :=
  match reply2 with
  | Json.obj kvs =>
    match validateRFQ kvs with
    | some validated =>
      Except.ok (dictSet (dictSet (dictSet validated
        "source_file" (Json.str source_file))
        "success" (Json.bool true))
        "message" (Json.str ("RFQ processed from " ++ source_file)))
    | none => create_fallback_response kvs source_file
  | _ => Except.error "LLM did not return a valid dictionary structure"

/-- `RFQFieldGenerator._parse_and_validate_response`: a string reply goes
through the three-strategy JSON extraction first. -/
def parse_and_validate_response (reply : Json) (source_file : String) :
    Except String (List (String × Json)) :=
  match reply with
  | Json.str s =>
    match extract_json_from_string s with
    | Except.ok r => validateStage r source_file
    | Except.error e => Except.error e
  | other => validateStage other source_file

/-- First line of `EXTRACTION_PROMPT_TEMPLATE` (its full text is inert
for every claim). -/
def EXTRACTION_PROMPT_TEMPLATE : String :=
  "Extract the following fields from the RFQ text below and return ONLY valid JSON:"

/-- The input truncation of `_generate_sync`. -/
def truncateInput (raw : String) : String :=
  if 8000 < raw.length then raw.take 8000 ++ "... [truncated]" else raw

/-- `RFQFieldGenerator._generate_sync`.  `oracle` is
`self.agent.generate_reply` as a function of the prompt, returning either
a reply value or a raised exception.  Every exception of the body is
caught and converted to an error record.  The `Nat` counts remote
generate calls. -/
def generate_sync (oracle : String → Except String Json) (raw_text source_file : String) :
    List (String × Json) × Nat :=
  if raw_text = "" ∨ pyStrip raw_text = "" then
    (create_error_response "Empty or invalid input text", 0)
  else
    let prompt := EXTRACTION_PROMPT_TEMPLATE ++ "\n\"\"\"\n" ++ truncateInput raw_text ++ "\n\"\"\""
    match oracle prompt with
    | Except.error e => (create_error_response e, 1)
    | Except.ok reply =>
      match parse_and_validate_response reply source_file with
      | Except.ok record => (record, 1)
      | Except.error e => (create_error_response e, 1)

/-- tenacity `retry(stop=stop_after_attempt(n), reraise=True)`: repeat the
call while it raises, up to `n` attempts, re-raising the last error; the
`wait_exponential(min=4, max=10)` backoff only spaces attempts in time
and has no functional content here.  Returns the outcome and the number
of attempts made. -/
def tenacityGo {E A : Type} (call : Nat → Except E A) : Nat → Nat → Except E A × Nat
  | attempt, 0 => (call attempt, attempt)
  | attempt, 1 => (call attempt, attempt)
  | attempt, n + 2 =>
    match call attempt with
    | Except.ok a => (Except.ok a, attempt)
    | Except.error _ => tenacityGo call (attempt + 1) (n + 1)

/-- The tenacity wrapper at `maxAttempts` attempts. -/
def tenacityRetry {E A : Type} (maxAttempts : Nat) (call : Nat → Except E A) :
    Except E A × Nat :=
  tenacityGo call 1 maxAttempts

/-- `RFQFieldGenerator.generate_async`: the retry decorator around one
`_generate_sync` call.  Since `_generate_sync` catches every exception of
its body, the wrapped call can never raise — its error type is `Empty` —
and the result is (record, tenacity attempts made, remote generate
calls). -/
def generate_async (oracle : String → Except String Json) (raw_text source_file : String) :
    List (String × Json) × Nat × Nat :=
  let res := tenacityRetry 3
    (fun _ => (Except.ok (generate_sync oracle raw_text source_file) : Except Empty _))
  match res.1 with
  | Except.ok rc => (rc.1, res.2, rc.2)
  | Except.error e => e.elim

/-- The record produced by the validation path for an empty JSON-object
reply (every field at its default), used by the C9 witness. -/
def c9WitRecord : List (String × Json) :=
  match parse_and_validate_response (Json.obj []) "f.txt" with
  | Except.ok out => out
  | Except.error _ => []

/-! ## Theorems -/

/-! ### Attachment-store lemmas -/

theorem fsLookup_fsWrite_self (dir : FileStore) (k : String) (v : List Nat) :
    fsLookup (fsWrite dir k v) k = some v := by
  induction dir with
  | nil => simp [fsWrite, fsLookup]
  | cons kv rest ih =>
    by_cases h : kv.1 = k
    · simp [fsWrite, fsLookup, h]
    · simp [fsWrite, fsLookup, h, ih]

theorem fsLookup_fsWrite_ne (dir : FileStore) (k k' : String) (v : List Nat)
    (h : k' ≠ k) : fsLookup (fsWrite dir k v) k' = fsLookup dir k' := by
  induction dir with
  | nil => simp [fsWrite, fsLookup, Ne.symm h]
  | cons kv rest ih =>
    by_cases hk : kv.1 = k
    · subst hk
      simp [fsWrite, fsLookup, h, Ne.symm h]
    · by_cases hk' : kv.1 = k'
      · simp [fsWrite, fsLookup, hk, hk', h]
      · simp [fsWrite, fsLookup, hk, hk', ih]

theorem fsWrite_keys (dir : FileStore) (k : String) (v : List Nat) :
    (fsWrite dir k v).map Prod.fst =
      if k ∈ dir.map Prod.fst then dir.map Prod.fst else dir.map Prod.fst ++ [k] := by
  induction dir with
  | nil => simp [fsWrite]
  | cons kv rest ih =>
    by_cases h : kv.1 = k
    · simp [fsWrite, h]
    · simp only [fsWrite, if_neg h, List.map_cons, ih]
      by_cases hm : k ∈ rest.map Prod.fst
      · simp [hm, Ne.symm h]
      · simp [hm, Ne.symm h]

theorem fsWrite_keys_nodup (dir : FileStore) (k : String) (v : List Nat)
    (h : (dir.map Prod.fst).Nodup) : ((fsWrite dir k v).map Prod.fst).Nodup := by
  rw [fsWrite_keys]
  by_cases hm : k ∈ dir.map Prod.fst
  · simpa [hm] using h
  · rw [if_neg hm, List.nodup_append]
    refine ⟨h, List.nodup_singleton k, ?_⟩
    intro a ha hb
    rw [List.mem_singleton] at hb
    exact hm (hb ▸ ha)

theorem timestampedName_ne (now f : String) : now ++ "_" ++ f ≠ f := by
  intro h
  have hl := congrArg String.length h
  rw [String.length_append, String.length_append] at hl
  have h1 : "_".length = 1 := rfl
  omega

/-- C2 (amended): the per-call postconditions of `save_attachment` hold as
the spec states them — equal hash ⇒ no write and the existing canonical
path; different hash ⇒ a timestamp-prefixed file is written and the
original is unchanged; no existing file ⇒ write under the canonical name —
and key-uniqueness of the bucket is preserved (at most one canonical file
per filename).  The round-trip ("saving the same bytes twice yields the
same stored path with no duplicate file") holds provided the canonical
name is not already occupied by differing content; when it is, each save
of the same bytes writes its own timestamp-prefixed copy (see the
counterexample). -/
theorem save_attachment_postconditions :
    (∀ dir a indentId now c0, fsLookup dir a.filename = some c0 →
      md5Hex c0 = md5Hex a.content →
      save_attachment dir a indentId now = (storagePath indentId a.filename, dir)) ∧
    (∀ dir a indentId now c0, fsLookup dir a.filename = some c0 →
      md5Hex c0 ≠ md5Hex a.content →
      save_attachment dir a indentId now =
        (storagePath indentId (now ++ "_" ++ a.filename),
          fsWrite dir (now ++ "_" ++ a.filename) a.content) ∧
      fsLookup (save_attachment dir a indentId now).2 a.filename = some c0 ∧
      fsLookup (save_attachment dir a indentId now).2 (now ++ "_" ++ a.filename) = some a.content) ∧
    (∀ dir a indentId now, fsLookup dir a.filename = none →
      save_attachment dir a indentId now =
        (storagePath indentId a.filename, fsWrite dir a.filename a.content) ∧
      fsLookup (save_attachment dir a indentId now).2 a.filename = some a.content) ∧
    (∀ dir a indentId now, (dir.map Prod.fst).Nodup →
      ((save_attachment dir a indentId now).2.map Prod.fst).Nodup) ∧
    (∀ dir a indentId now1 now2,
      (fsLookup dir a.filename = none ∨
        (∃ c0, fsLookup dir a.filename = some c0 ∧ md5Hex c0 = md5Hex a.content)) →
      (save_attachment (save_attachment dir a indentId now1).2 a indentId now2).1 =
        (save_attachment dir a indentId now1).1 ∧
      (save_attachment (save_attachment dir a indentId now1).2 a indentId now2).2 =
        (save_attachment dir a indentId now1).2) := by
  refine ⟨?_, ?_, ?_, ?_, ?_⟩
  · intro dir a indentId now c0 hl hh
    simp [save_attachment, hl, hh.symm]
  · intro dir a indentId now c0 hl hh
    have hne := Ne.symm hh
    refine ⟨by simp [save_attachment, hl, hne], ?_, ?_⟩
    · simp only [save_attachment, hl, if_neg hne]
      rw [fsLookup_fsWrite_ne dir _ a.filename a.content (Ne.symm (timestampedName_ne now a.filename))]
      exact hl
    · simp only [save_attachment, hl, if_neg hne]
      exact fsLookup_fsWrite_self dir _ a.content
  · intro dir a indentId now hl
    refine ⟨by simp [save_attachment, hl], ?_⟩
    simp only [save_attachment, hl]
    exact fsLookup_fsWrite_self dir _ a.content
  · intro dir a indentId now hn
    unfold save_attachment
    cases hl : fsLookup dir a.filename with
    | some c0 =>
      by_cases hh : md5Hex a.content = md5Hex c0
      · simpa [hh] using hn
      · simpa [hh] using fsWrite_keys_nodup dir _ a.content hn
    | none => exact fsWrite_keys_nodup dir _ a.content hn
  · intro dir a indentId now1 now2 hcase
    rcases hcase with hl | ⟨c0, hl, hh⟩
    · have h1 : save_attachment dir a indentId now1 =
          (storagePath indentId a.filename, fsWrite dir a.filename a.content) := by
        simp [save_attachment, hl]
      rw [h1]
      have h2 : fsLookup (fsWrite dir a.filename a.content) a.filename = some a.content :=
        fsLookup_fsWrite_self dir a.filename a.content
      constructor <;> simp [save_attachment, h2]
    · have h1 : save_attachment dir a indentId now1 = (storagePath indentId a.filename, dir) := by
        simp [save_attachment, hl, hh.symm]
      rw [h1]
      constructor <;> simp [save_attachment, hl, hh.symm]

/-- Witness for C2: a canonical file with identical bytes is returned
untouched, and saving the same bytes twice into an empty bucket returns
the same path both times. -/
theorem save_attachment_postconditions_witness :
    save_attachment [("a.txt", [1])] ⟨"a.txt", [1]⟩ "7" "t1" =
      (storagePath "7" "a.txt", [("a.txt", [1])]) ∧
    (save_attachment (save_attachment [] ⟨"a.txt", [1]⟩ "7" "t1").2 ⟨"a.txt", [1]⟩ "7" "t2").1 =
      (save_attachment [] ⟨"a.txt", [1]⟩ "7" "t1").1 :=
  ⟨save_attachment_postconditions.1 [("a.txt", [1])] ⟨"a.txt", [1]⟩ "7" "t1" [1] (by decide) (by decide),
   (save_attachment_postconditions.2.2.2.2 [] ⟨"a.txt", [1]⟩ "7" "t1" "t2" (Or.inl (by decide))).1⟩

/-- C2 counterexample: when the canonical name is occupied by differing
content, saving the same bytes twice (at different run timestamps, as
`datetime.now` produces) yields two different stored paths and a second
copy of the file, refuting the claim's "saving the same bytes twice yields
the same stored path with no duplicate file". -/
theorem save_attachment_roundtrip_counterexample :
    (save_attachment
        (save_attachment [("a.txt", [1])] ⟨"a.txt", [2]⟩ "7" "20240101_t1").2
        ⟨"a.txt", [2]⟩ "7" "20240102_t2").1 ≠
      (save_attachment [("a.txt", [1])] ⟨"a.txt", [2]⟩ "7" "20240101_t1").1 ∧
    (save_attachment
        (save_attachment [("a.txt", [1])] ⟨"a.txt", [2]⟩ "7" "20240101_t1").2
        ⟨"a.txt", [2]⟩ "7" "20240102_t2").2.length =
      (save_attachment [("a.txt", [1])] ⟨"a.txt", [2]⟩ "7" "20240101_t1").2.length + 1 := by
  constructor <;> decide

/-- If the pattern loop yields a group, some pattern produced it and all
earlier patterns failed on the normalised subject. -/
theorem firstPatternMatch_some (ps : List (List RE)) (cs : List Char) (g : String)
    (h : firstPatternMatch ps cs = some g) :
    ∃ ps1 p ps2, ps = ps1 ++ p :: ps2 ∧ reSearchGroup p cs = some g ∧
      ∀ q ∈ ps1, reSearchGroup q cs = none := by
  induction ps with
  | nil => simp [firstPatternMatch] at h
  | cons p ps ih =>
    rw [firstPatternMatch] at h
    cases hp : reSearchGroup p cs with
    | some g0 =>
      rw [hp] at h
      cases h
      exact ⟨[], p, ps, rfl, hp, by simp⟩
    | none =>
      rw [hp] at h
      obtain ⟨ps1, q, ps2, heq, hq, hnone⟩ := ih h
      refine ⟨p :: ps1, q, ps2, by simp [heq], hq, ?_⟩
      intro r hr
      rcases List.mem_cons.mp hr with h1 | h1
      · exact h1 ▸ hp
      · exact hnone r h1

/-- If every pattern fails on the normalised subject, the loop yields none. -/
theorem firstPatternMatch_none (ps : List (List RE)) (cs : List Char)
    (h : ∀ p ∈ ps, reSearchGroup p cs = none) :
    firstPatternMatch ps cs = none := by
  induction ps with
  | nil => rfl
  | cons p ps ih =>
    rw [firstPatternMatch, h p (List.mem_cons_self p ps)]
    exact ih fun q hq => h q (List.mem_cons_of_mem p hq)

/-- C5: for every subject `S`, `extract_indent_id` returns at most one
identifier; if it returns `some id` then some pattern of the ordered rule
list `indent_patterns`, applied to the lowercased (and stripped) subject,
captured `id` while every earlier pattern failed (first matching rule
wins); and if no rule matches — in particular for the empty subject — it
returns `none` (the function is total, so it never throws). -/
theorem extract_indent_id_first_match_wins (S : String) :
    (∀ id1 id2, extract_indent_id S = some id1 → extract_indent_id S = some id2 → id1 = id2) ∧
    (∀ id, extract_indent_id S = some id →
      ∃ ps1 p ps2, indent_patterns = ps1 ++ p :: ps2 ∧
        reSearchGroup p (subjectNorm S) = some id ∧
        ∀ q ∈ ps1, reSearchGroup q (subjectNorm S) = none) ∧
    ((∀ p ∈ indent_patterns, reSearchGroup p (subjectNorm S) = none) →
      extract_indent_id S = none) := by
  refine ⟨?_, ?_, ?_⟩
  · intro id1 id2 h1 h2
    rw [h1] at h2
    exact Option.some.inj h2
  · intro id h
    unfold extract_indent_id at h
    split at h
    · exact absurd h (by simp)
    · exact firstPatternMatch_some _ _ _ h
  · intro hall
    unfold extract_indent_id
    split
    · rfl
    · exact firstPatternMatch_none _ _ hall

/-- Witness for C5 at concrete subjects: `"Indent ID: 1234"` is captured by
a rule with all earlier rules failing, and `"Re: pricing update"` matches
no rule, hence yields no identifier. -/
theorem extract_indent_id_first_match_wins_witness :
    (∃ ps1 p ps2, indent_patterns = ps1 ++ p :: ps2 ∧
        reSearchGroup p (subjectNorm "Indent ID: 1234") = some "1234" ∧
        ∀ q ∈ ps1, reSearchGroup q (subjectNorm "Indent ID: 1234") = none) ∧
    extract_indent_id "Re: pricing update" = none :=
  ⟨(extract_indent_id_first_match_wins "Indent ID: 1234").2.1 "1234" (by decide),
   (extract_indent_id_first_match_wins "Re: pricing update").2.2 (by decide)⟩

/-! ### Harvester-run lemmas -/

theorem runEmails_eq_runPairsFold (extract : String → String → String) (indentId : String)
    (store : Option Summary) (now : String) (emails : List EmailMsg) (st : RunSt) :
    runEmails extract indentId store now emails st =
      runPairsFold extract indentId store now (runPairs emails) st := by
  induction emails generalizing st with
  | nil => rfl
  | cons e es ih =>
    show runEmails extract indentId store now es
        (e.attachments.foldl (processAttachment extract indentId store now e) st) = _
    rw [ih]
    unfold runPairsFold runPairs
    rw [List.flatMap_cons, List.foldl_append, List.foldl_map]

theorem processAttachment_quotes (extract : String → String → String) (indentId : String)
    (store : Option Summary) (now : String) (e : EmailMsg) (st : RunSt) (a : Attachment) :
    ∃ q, (processAttachment extract indentId store now e st a).quotes = st.quotes ++ [q] ∧
      entryKey q = (e.subject, a.filename) := by
  unfold processAttachment
  cases hq : is_quote_already_processed store e.subject a.filename with
  | some q =>
    refine ⟨q, rfl, ?_⟩
    unfold is_quote_already_processed at hq
    cases store with
    | none => simp at hq
    | some s =>
      have hp := List.find?_some hq
      unfold quoteMatches at hp
      have hp' := of_decide_eq_true hp
      unfold entryKey
      rw [hp'.1, hp'.2]
  | none => exact ⟨_, rfl, rfl⟩

theorem runPairsFold_keys (extract : String → String → String) (indentId : String)
    (store : Option Summary) (now : String) (ps : List (EmailMsg × Attachment)) (st : RunSt) :
    (runPairsFold extract indentId store now ps st).quotes.map entryKey =
      st.quotes.map entryKey ++ ps.map pairKey := by
  induction ps generalizing st with
  | nil => simp [runPairsFold]
  | cons p ps ih =>
    obtain ⟨q, hq, hk⟩ := processAttachment_quotes extract indentId store now p.1 st p.2
    show (runPairsFold extract indentId store now ps
        (processAttachment extract indentId store now p.1 st p.2)).quotes.map entryKey = _
    rw [ih, hq]
    simp [hk, pairKey]

theorem find?_quoteMatches_nodup (Q : List QuoteEntry) (q : QuoteEntry)
    (hnd : (Q.map entryKey).Nodup) (hmem : q ∈ Q) :
    Q.find? (quoteMatches q.email_subject q.filename) = some q := by
  induction Q with
  | nil => cases hmem
  | cons h t ih =>
    rcases List.mem_cons.mp hmem with rfl | hmem'
    · have hp : quoteMatches q.email_subject q.filename q = true := by
        simp [quoteMatches]
      exact List.find?_cons_of_pos t hp
    · have hne : entryKey h ≠ entryKey q := by
        intro hEq
        have h1 : entryKey q ∈ t.map entryKey := List.mem_map_of_mem entryKey hmem'
        have h2 := (List.nodup_cons.mp hnd).1
        rw [List.map_cons] at hnd
        exact (List.nodup_cons.mp hnd).1 (hEq ▸ h1)
      have hp : ¬ quoteMatches q.email_subject q.filename h = true := by
        intro hb
        have hand := of_decide_eq_true (by simpa [quoteMatches] using hb)
        exact hne (by unfold entryKey; rw [hand.1, hand.2])
      rw [List.find?_cons_of_neg t hp]
      exact ih ((List.nodup_cons.mp (by rwa [List.map_cons] at hnd)).2) hmem'

theorem runPairsFold_reuse (extract : String → String → String) (indentId now : String)
    (S1 : Summary) (hnd : (S1.quotes.map entryKey).Nodup) :
    ∀ (ps : List (EmailMsg × Attachment)) (pre suf : List QuoteEntry) (st : RunSt),
      S1.quotes = pre ++ suf →
      suf.map entryKey = ps.map pairKey →
      runPairsFold extract indentId (some S1) now ps st =
        { st with quotes := st.quotes ++ suf } := by
  intro ps
  induction ps with
  | nil =>
    intro pre suf st hsplit hkeys
    have hsuf : suf = [] := by
      cases suf with
      | nil => rfl
      | cons x xs => simp at hkeys
    subst hsuf
    show st = _
    cases st
    simp
  | cons p ps ih =>
    intro pre suf st hsplit hkeys
    cases suf with
    | nil => simp at hkeys
    | cons q suf' =>
      rw [List.map_cons, List.map_cons] at hkeys
      have hkq : entryKey q = pairKey p := (List.cons.injEq _ _ _ _ ▸ hkeys).1
      have hkeys' : suf'.map entryKey = ps.map pairKey := (List.cons.injEq _ _ _ _ ▸ hkeys).2
      have hqmem : q ∈ S1.quotes := by
        rw [hsplit]
        exact List.mem_append_right pre (List.mem_cons_self q suf')
      have h1 : q.email_subject = p.1.subject := congrArg Prod.fst hkq
      have h2 : q.filename = p.2.filename := congrArg Prod.snd hkq
      have hfind : S1.quotes.find? (quoteMatches p.1.subject p.2.filename) = some q := by
        rw [← h1, ← h2]
        exact find?_quoteMatches_nodup S1.quotes q hnd hqmem
      have hstep : processAttachment extract indentId (some S1) now p.1 st p.2 =
          { st with quotes := st.quotes ++ [q] } := by
        simp only [processAttachment, is_quote_already_processed, hfind]
      show runPairsFold extract indentId (some S1) now ps
          (processAttachment extract indentId (some S1) now p.1 st p.2) = _
      rw [hstep, ih (pre ++ [q]) suf' _ (by rw [hsplit]; simp) hkeys']
      simp

/-- C1 (amended): when every (email subject, attachment filename) pair of
the harvested mailbox is distinct, a second run of
`process_emails_by_indent` over the unchanged mailbox and the summary
written by the first run reuses every stored entry verbatim, performs no
extraction, leaves the attachment store unchanged, reproduces the first
run's quotes and totals, and produces a summary identical to the first
run's whenever the two runs record the same `processed_date` timestamp
(over duplicate dedup keys, or across differing timestamps, strict
equality fails — see the counterexample). -/
theorem process_emails_by_indent_second_run (extract : String → String → String)
    (indentId : String) (emails : List EmailMsg) (store0 : Option Summary)
    (files0 : FileStore) (now1 now2 : String)
    (hnd : ((runPairs emails).map pairKey).Nodup) :
    let r1 := process_emails_by_indent extract indentId emails store0 files0 now1
    let r2 := process_emails_by_indent extract indentId emails r1.store r1.files now2
    r2.summary.quotes = r1.summary.quotes ∧
    r2.summary.total_emails = r1.summary.total_emails ∧
    r2.summary.total_quotes = r1.summary.total_quotes ∧
    r2.extracted = [] ∧
    r2.files = r1.files ∧
    (now2 = now1 → r2.summary = r1.summary) := by
  intro r1 r2
  by_cases he : emails.isEmpty
  · have hr1 : r1 = ⟨emptyIndentSummary indentId now1, store0, files0, []⟩ := by
      simp [r1, process_emails_by_indent, he]
    have hr2 : r2 = ⟨emptyIndentSummary indentId now2, r1.store, r1.files, []⟩ := by
      simp [r2, process_emails_by_indent, he]
    rw [hr1] at hr2 ⊢
    rw [hr2]
    refine ⟨rfl, rfl, rfl, rfl, rfl, ?_⟩
    intro hnow
    rw [hnow]
  · set st1 := runEmails extract indentId store0 now1 emails
      { quotes := [], files := files0, extracted := [] } with hst1
    set S1 : Summary :=
      { indent_id := indentId, processed_date := now1, total_emails := emails.length,
        total_quotes := st1.quotes.length, quotes := st1.quotes, successFlag := none } with hS1
    have hr1 : r1 = ⟨S1, some S1, st1.files, st1.extracted⟩ := by
      simp [r1, process_emails_by_indent, he, hst1, hS1]
    have hkeys : st1.quotes.map entryKey = (runPairs emails).map pairKey := by
      rw [hst1, runEmails_eq_runPairsFold, runPairsFold_keys]
      simp
    have hndQ : (S1.quotes.map entryKey).Nodup := by
      rw [hS1]
      simpa [hkeys] using hnd
    have hst2 : runEmails extract indentId (some S1) now2 emails ⟨[], st1.files, []⟩ =
        ⟨[] ++ st1.quotes, st1.files, []⟩ := by
      rw [runEmails_eq_runPairsFold]
      exact runPairsFold_reuse extract indentId now2 S1 hndQ (runPairs emails) [] st1.quotes
        ⟨[], st1.files, []⟩ rfl (by rw [hkeys])
    set S2 : Summary :=
      { indent_id := indentId, processed_date := now2, total_emails := emails.length,
        total_quotes := st1.quotes.length, quotes := st1.quotes, successFlag := none } with hS2
    have hr2 : r2 = ⟨S2, some S2, st1.files, []⟩ := by
      simp only [r2, process_emails_by_indent, he, hr1, hst2]
      simp [hS2]
    rw [hr1, hr2]
    refine ⟨rfl, rfl, rfl, rfl, rfl, ?_⟩
    intro hnow
    rw [hS2, hS1, hnow]

/-- Witness for C1 at a concrete mailbox with distinct dedup keys: the
second harvesting run reproduces the first run's summary exactly and
extracts nothing. -/
theorem process_emails_by_indent_second_run_witness :
    c1WitRun2.summary = c1WitRun1.summary ∧ c1WitRun2.extracted = [] :=
  ⟨(process_emails_by_indent_second_run (fun _ b => b) "7" c1WitEmails none [] "t" "t"
      (by decide)).2.2.2.2.2 rfl,
   (process_emails_by_indent_second_run (fun _ b => b) "7" c1WitEmails none [] "t" "t"
      (by decide)).2.2.2.1⟩

/-- C1 counterexample: with two emails sharing the same subject and
attachment filename, the second run over the unchanged mailbox and
summary (at the same timestamp) reuses the first matching stored entry
for both attachments and so produces a different summary than the first
run — re-harvesting is not idempotent as claimed. -/
theorem process_emails_by_indent_idempotence_counterexample :
    c1CexRun2.summary ≠ c1CexRun1.summary ∧ c1CexRun2.extracted = [] := by
  constructor
  · decide
  · decide

/-! ### Dict lemmas -/

theorem dictLookup_objInsert_self (kvs : List (String × Json)) (k : String) (v : Json) :
    dictLookup k (objInsert kvs k v) = some v := by
  induction kvs with
  | nil => simp [objInsert, dictLookup]
  | cons kv rest ih =>
    by_cases h : kv.1 = k
    · simp [objInsert, dictLookup, h]
    · simp [objInsert, dictLookup, h, ih]

theorem dictLookup_objInsert_ne (kvs : List (String × Json)) (k k' : String) (v : Json)
    (h : k' ≠ k) : dictLookup k' (objInsert kvs k v) = dictLookup k' kvs := by
  induction kvs with
  | nil => simp [objInsert, dictLookup, Ne.symm h]
  | cons kv rest ih =>
    by_cases hk : kv.1 = k
    · subst hk
      simp [objInsert, dictLookup, h, Ne.symm h]
    · by_cases hk' : kv.1 = k'
      · simp [objInsert, dictLookup, hk, hk', h]
      · simp [objInsert, dictLookup, hk, hk', ih]

theorem dictLookup_mem (kvs : List (String × Json)) (k : String) (v : Json)
    (h : dictLookup k kvs = some v) : (k, v) ∈ kvs := by
  induction kvs with
  | nil => simp [dictLookup] at h
  | cons kv rest ih =>
    by_cases hk : kv.1 = k
    · rw [dictLookup, if_pos hk] at h
      cases h
      have : (k, kv.2) = kv := by
        rw [← hk]
      rw [this]
      exact List.mem_cons_self kv rest
    · rw [dictLookup, if_neg hk] at h
      exact List.mem_cons_of_mem kv (ih h)

theorem dictLookup_none_not_mem (kvs : List (String × Json)) (k : String)
    (h : dictLookup k kvs = none) : k ∉ kvs.map Prod.fst := by
  induction kvs with
  | nil => simp
  | cons kv rest ih =>
    by_cases hk : kv.1 = k
    · rw [dictLookup, if_pos hk] at h
      cases h
    · rw [dictLookup, if_neg hk] at h
      simp only [List.map_cons, List.mem_cons]
      rintro (h1 | h1)
      · exact hk h1.symm
      · exact ih h h1

/-! ### C6: empty input short-circuit -/

/-- C6: for every empty or whitespace-only input text, `_generate_sync`
returns immediately with `success=false` and `confidence_score=0.0` and
makes no remote generate call. -/
theorem generate_sync_empty_input (oracle : String → Except String Json)
    (raw_text source_file : String) (h : pyStrip raw_text = "") :
    generate_sync oracle raw_text source_file =
      (create_error_response "Empty or invalid input text", 0) ∧
    dictLookup "success" (generate_sync oracle raw_text source_file).1 =
      some (Json.bool false) ∧
    dictLookup "confidence_score" (generate_sync oracle raw_text source_file).1 =
      some (Json.num 0) := by
  have h1 : generate_sync oracle raw_text source_file =
      (create_error_response "Empty or invalid input text", 0) := by
    unfold generate_sync
    rw [if_pos (Or.inr h)]
  refine ⟨h1, ?_, ?_⟩ <;> rw [h1] <;> rfl

/-- Witness for C6 at a whitespace-only input. -/
theorem generate_sync_empty_input_witness :
    generate_sync (fun _ => Except.ok (Json.obj [])) "  " "f.txt" =
      (create_error_response "Empty or invalid input text", 0) :=
  (generate_sync_empty_input (fun _ => Except.ok (Json.obj [])) "  " "f.txt" (by decide)).1

/-! ### C3: the retry wrapper never sees a failure -/

/-- C3 (code evaluated at the failing input): a remote generate call that
raises a timeout on every attempt produces exactly ONE attempt — not the
three the retry policy declares — and an immediate `success=false`
record, because `_generate_sync` catches every exception before the
tenacity wrapper can observe it; the middle component is the number of
tenacity attempts, the last the number of remote calls. -/
theorem generate_async_transient_failure_single_attempt :
    generate_async (fun _ => Except.error "Request timed out") "quote text" "q.pdf" =
      (create_error_response "Request timed out", 1, 1) ∧
    dictLookup "success"
      (generate_async (fun _ => Except.error "Request timed out") "quote text" "q.pdf").1 =
      some (Json.bool false) :=
  ⟨rfl, rfl⟩

/-! ### Fallback-record lemmas -/

theorem dictLookup_dictSet_self (kvs : List (String × Json)) (k : String) (v : Json) :
    dictLookup k (dictSet kvs k v) = some v :=
  dictLookup_objInsert_self kvs k v

theorem dictLookup_dictSet_ne (kvs : List (String × Json)) (k k' : String) (v : Json)
    (h : k' ≠ k) : dictLookup k' (dictSet kvs k v) = dictLookup k' kvs :=
  dictLookup_objInsert_ne kvs k k' v h

theorem dictLookup_fallbackStamp_success (f1 : List (String × Json)) (sf : String) :
    dictLookup "success" (fallbackStamp f1 sf) = some (Json.bool true) := by
  unfold fallbackStamp
  rw [dictLookup_dictSet_ne _ _ _ _ (by decide),
    dictLookup_dictSet_ne _ _ _ _ (by decide),
    dictLookup_dictSet_self]

theorem dictLookup_fallbackStamp_review (f1 : List (String × Json)) (sf : String) :
    dictLookup "requires_review" (fallbackStamp f1 sf) = some (Json.bool true) := by
  unfold fallbackStamp
  rw [dictLookup_dictSet_self]

theorem dictLookup_fallbackStamp_other (f1 : List (String × Json)) (sf k : String)
    (h1 : k ≠ "source_file") (h2 : k ≠ "success") (h3 : k ≠ "message")
    (h4 : k ≠ "requires_review") :
    dictLookup k (fallbackStamp f1 sf) = dictLookup k f1 := by
  unfold fallbackStamp
  rw [dictLookup_dictSet_ne _ _ _ _ h4, dictLookup_dictSet_ne _ _ _ _ h3,
    dictLookup_dictSet_ne _ _ _ _ h2, dictLookup_dictSet_ne _ _ _ _ h1]

theorem fallbackFill_frame (raw : List (String × Json)) (acc : List (String × Json))
    (k : String) (h : k ∉ raw.map Prod.fst) :
    dictLookup k (raw.foldl
      (fun acc kv => if kv.1 ∈ rfqFieldNames then dictSet acc kv.1 kv.2 else acc) acc) =
      dictLookup k acc := by
  induction raw generalizing acc with
  | nil => rfl
  | cons kv rest ih =>
    have hne : k ≠ kv.1 := by
      intro he
      exact h (by simp [he])
    have h' : k ∉ rest.map Prod.fst := fun hm => h (by simp [hm])
    show dictLookup k (rest.foldl _ (if kv.1 ∈ rfqFieldNames then dictSet acc kv.1 kv.2 else acc)) = _
    rw [ih _ h']
    by_cases hf : kv.1 ∈ rfqFieldNames
    · rw [if_pos hf, dictLookup_dictSet_ne _ _ _ _ hne]
    · rw [if_neg hf]

theorem fallbackFill_retains (raw : List (String × Json)) (acc : List (String × Json))
    (k : String) (v : Json) (hnd : (raw.map Prod.fst).Nodup) (hmem : (k, v) ∈ raw)
    (hf : k ∈ rfqFieldNames) :
    dictLookup k (raw.foldl
      (fun acc kv => if kv.1 ∈ rfqFieldNames then dictSet acc kv.1 kv.2 else acc) acc) =
      some v := by
  induction raw generalizing acc with
  | nil => cases hmem
  | cons kv rest ih =>
    rw [List.map_cons] at hnd
    have hnd2 := List.nodup_cons.mp hnd
    rcases List.mem_cons.mp hmem with heq | hmem'
    · obtain ⟨hk1, hk2⟩ : kv.1 = k ∧ kv.2 = v := by
        rw [← heq]
        exact ⟨rfl, rfl⟩
      have hk : k ∉ rest.map Prod.fst := hk1 ▸ hnd2.1
      show dictLookup k (rest.foldl _ (if kv.1 ∈ rfqFieldNames then dictSet acc kv.1 kv.2 else acc)) = _
      rw [fallbackFill_frame rest _ k hk, hk1, hk2, if_pos hf]
      exact dictLookup_dictSet_self acc k v
    · exact ih _ hnd2.2 hmem'

/-! ### C9: the success flag through the validation path -/

/-- C9: every record the validation path returns carries `success=true` —
including the degraded fallback record after a schema-validation failure —
while the error-response records carry `success=false`; the success flag
of `_generate_sync`'s result is `false` only on the error-response path
(empty input, a raised remote call, or a raised parse/validate step), so
the flag alone cannot distinguish a degraded record from a fully-valid
one. -/
theorem validation_path_success_true :
    (∀ kvs sf out, create_fallback_response kvs sf = Except.ok out →
      dictLookup "success" out = some (Json.bool true)) ∧
    (∀ reply sf out, parse_and_validate_response reply sf = Except.ok out →
      dictLookup "success" out = some (Json.bool true)) ∧
    (∀ msg, dictLookup "success" (create_error_response msg) = some (Json.bool false)) ∧
    (∀ oracle raw sf,
      dictLookup "success" (generate_sync oracle raw sf).1 = some (Json.bool false) →
      ∃ msg, (generate_sync oracle raw sf).1 = create_error_response msg) := by
  have hfb : ∀ kvs sf out, create_fallback_response kvs sf = Except.ok out →
      dictLookup "success" out = some (Json.bool true) := by
    intro kvs sf out h
    unfold create_fallback_response at h
    split at h
    · cases h
      rw [dictLookup_dictSet_ne _ _ _ _ (by decide)]
      exact dictLookup_fallbackStamp_success _ _
    · cases h
      rw [dictLookup_dictSet_ne _ _ _ _ (by decide)]
      exact dictLookup_fallbackStamp_success _ _
    · cases h
  have hstage : ∀ r sf out, validateStage r sf = Except.ok out →
      dictLookup "success" out = some (Json.bool true) := by
    intro r sf out h
    unfold validateStage at h
    split at h
    · split at h
      · cases h
        rw [dictLookup_dictSet_ne _ _ _ _ (by decide), dictLookup_dictSet_self]
      · exact hfb _ _ _ h
    · cases h
  have hpv : ∀ reply sf out, parse_and_validate_response reply sf = Except.ok out →
      dictLookup "success" out = some (Json.bool true) := by
    intro reply sf out h
    unfold parse_and_validate_response at h
    split at h
    · split at h
      · exact hstage _ _ _ h
      · cases h
    · exact hstage _ _ _ h
  refine ⟨hfb, hpv, fun msg => rfl, ?_⟩
  intro oracle raw sf h
  by_cases hemp : raw = "" ∨ pyStrip raw = ""
  · refine ⟨"Empty or invalid input text", ?_⟩
    unfold generate_sync
    rw [if_pos hemp]
  · have hg : generate_sync oracle raw sf =
        (match oracle (EXTRACTION_PROMPT_TEMPLATE ++ "\n\"\"\"\n" ++ truncateInput raw ++ "\n\"\"\"") with
         | Except.error e => (create_error_response e, 1)
         | Except.ok reply =>
           match parse_and_validate_response reply sf with
           | Except.ok record => (record, 1)
           | Except.error e => (create_error_response e, 1)) := by
      unfold generate_sync
      rw [if_neg hemp]
    rw [hg] at h ⊢
    cases ho : oracle (EXTRACTION_PROMPT_TEMPLATE ++ "\n\"\"\"\n" ++ truncateInput raw ++ "\n\"\"\"") with
    | error e => exact ⟨e, rfl⟩
    | ok reply =>
      rw [ho] at h
      have h' : dictLookup "success"
          (match parse_and_validate_response reply sf with
           | Except.ok record => (record, 1)
           | Except.error e => (create_error_response e, 1)).1 = some (Json.bool false) := h
      show ∃ msg,
          (match parse_and_validate_response reply sf with
           | Except.ok record => (record, 1)
           | Except.error e => (create_error_response e, 1)).1 = create_error_response msg
      cases hp : parse_and_validate_response reply sf with
      | ok record =>
        rw [hp] at h'
        exact absurd ((hpv _ _ _ hp).symm.trans h') (by simp)
      | error e2 => exact ⟨e2, rfl⟩

/-- Witness for C9: the record of an empty-object reply (validation path)
carries `success=true`. -/
theorem validation_path_success_true_witness :
    dictLookup "success" c9WitRecord = some (Json.bool true) :=
  validation_path_success_true.2.1 (Json.obj []) "f.txt" c9WitRecord rfl

/-! ### C4: best-effort fallback on schema validation failure -/

/-- C4 counterexample: the reply
`\x7b"line_items": 5, "confidence_score": "0.9"\x7d` parses as a JSON
object and fails schema validation, yet the generator does NOT return a
best-effort record with `confidence_score ≥ 0.3`: the copied
confidence_score is an (individually valid) numeric string, Python's
`max(0.3, "0.9")` raises `TypeError`, and the caught exception produces
an error record with `success=false` and `confidence_score = 0.0 <
0.3`. -/
theorem fallback_confidence_floor_counterexample :
    extract_json_from_string "\x7b\"line_items\": 5, \"confidence_score\": \"0.9\"\x7d" =
      Except.ok (Json.obj [("line_items", Json.num 5), ("confidence_score", Json.str "0.9")]) ∧
    validateRFQ [("line_items", Json.num 5), ("confidence_score", Json.str "0.9")] = none ∧
    (generate_sync
        (fun _ => Except.ok (Json.str "\x7b\"line_items\": 5, \"confidence_score\": \"0.9\"\x7d"))
        "some text" "q.pdf").1 =
      create_error_response "TypeError: max() between float and non-numeric confidence_score" ∧
    dictLookup "confidence_score"
      (generate_sync
        (fun _ => Except.ok (Json.str "\x7b\"line_items\": 5, \"confidence_score\": \"0.9\"\x7d"))
        "some text" "q.pdf").1 = some (Json.num 0) ∧
    ¬ ((3/10 : Rat) ≤ 0) :=
  ⟨rfl, rfl, rfl, rfl, by norm_num⟩

/-- C4 (amended): for every reply that parses as a JSON object and fails
schema validation, PROVIDED its `confidence_score` field is absent or a
JSON number, the generator returns a best-effort record with
`requires_review=true` and `confidence_score ≥ 0.3` in which every reply
field bearing a model-field name — valid or not — is retained verbatim,
except the five stamped fields (source_file, success, message,
requires_review, confidence_score); a reply whose `confidence_score` is
itself non-numeric instead makes the fallback raise and yields an error
record (see the counterexample). -/
theorem parse_validate_fallback_best_effort (kvs : List (String × Json)) (sf : String)
    (hnd : (kvs.map Prod.fst).Nodup)
    (hval : validateRFQ kvs = none)
    (hconf : ∀ v, dictLookup "confidence_score" kvs = some v → ∃ q, v = Json.num q) :
    ∃ out, parse_and_validate_response (Json.obj kvs) sf = Except.ok out ∧
      dictLookup "requires_review" out = some (Json.bool true) ∧
      (∃ q, dictLookup "confidence_score" out = some (Json.num q) ∧ (3/10 : Rat) ≤ q) ∧
      (∀ k v, (k, v) ∈ kvs → k ∈ rfqFieldNames →
        k ∉ (["source_file", "success", "message", "requires_review", "confidence_score"] : List String) →
        dictLookup k out = some v) := by
  have hpv : parse_and_validate_response (Json.obj kvs) sf = create_fallback_response kvs sf := by
    show (match validateRFQ kvs with
      | some validated =>
        Except.ok (dictSet (dictSet (dictSet validated
          "source_file" (Json.str sf))
          "success" (Json.bool true))
          "message" (Json.str ("RFQ processed from " ++ sf)))
      | none => create_fallback_response kvs sf) = create_fallback_response kvs sf
    rw [hval]
  have hconf2 : ∃ q0 : Rat,
      dictLookup "confidence_score" (fallbackStamp (fallbackFill kvs) sf) =
        some (Json.num q0) := by
    rw [dictLookup_fallbackStamp_other _ _ _ (by decide) (by decide) (by decide) (by decide)]
    unfold fallbackFill
    cases hc : dictLookup "confidence_score" kvs with
    | some v =>
      obtain ⟨q, hq⟩ := hconf v hc
      subst hq
      exact ⟨q, fallbackFill_retains kvs rfqDefaults _ _ hnd (dictLookup_mem _ _ _ hc) (by decide)⟩
    | none =>
      refine ⟨0, ?_⟩
      rw [fallbackFill_frame kvs rfqDefaults _ (dictLookup_none_not_mem _ _ hc)]
      rfl
  obtain ⟨q0, hq0⟩ := hconf2
  have hcf : create_fallback_response kvs sf =
      Except.ok (dictSet (fallbackStamp (fallbackFill kvs) sf) "confidence_score"
        (Json.num (max (3/10 : Rat) q0))) := by
    unfold create_fallback_response
    rw [hq0]
  refine ⟨dictSet (fallbackStamp (fallbackFill kvs) sf) "confidence_score"
      (Json.num (max (3/10 : Rat) q0)), ?_, ?_, ?_, ?_⟩
  · rw [hpv, hcf]
  · rw [dictLookup_dictSet_ne _ _ _ _ (by decide)]
    exact dictLookup_fallbackStamp_review _ _
  · exact ⟨max (3/10 : Rat) q0, dictLookup_dictSet_self _ _ _, le_max_left _ _⟩
  · intro k v hkv hkf hkmeta
    simp only [List.mem_cons, List.mem_singleton, not_or] at hkmeta
    obtain ⟨m1, m2, m3, m4, m5, -⟩ := hkmeta
    rw [dictLookup_dictSet_ne _ _ _ _ m5,
      dictLookup_fallbackStamp_other _ _ _ m1 m2 m3 m4]
    unfold fallbackFill
    exact fallbackFill_retains kvs rfqDefaults k v hnd hkv hkf

/-- Witness for C4 at a concrete schema-failing reply whose
confidence_score is absent. -/
theorem parse_validate_fallback_best_effort_witness :
    ∃ out, parse_and_validate_response (Json.obj [("title", Json.num 7)]) "w.pdf" = Except.ok out ∧
      dictLookup "requires_review" out = some (Json.bool true) ∧
      (∃ q, dictLookup "confidence_score" out = some (Json.num q) ∧ (3/10 : Rat) ≤ q) ∧
      (∀ k v, (k, v) ∈ ([("title", Json.num 7)] : List (String × Json)) → k ∈ rfqFieldNames →
        k ∉ (["source_file", "success", "message", "requires_review", "confidence_score"] : List String) →
        dictLookup k out = some v) :=
  parse_validate_fallback_best_effort [("title", Json.num 7)] "w.pdf"
    (by decide) rfl (fun v h => nomatch h)

/-! ### C7: the three JSON fallback strategies -/

theorem dropWhile_append_all {α : Type} (p : α → Bool) (a l : List α)
    (h : ∀ c ∈ a, p c = true) : (a ++ l).dropWhile p = l.dropWhile p := by
  induction a with
  | nil => rfl
  | cons x xs ih =>
    have hx := h x (List.mem_cons_self x xs)
    rw [List.cons_append, List.dropWhile_cons, hx, if_pos rfl]
    exact ih fun c hc => h c (List.mem_cons_of_mem x hc)

/-- A reply opening with a Markdown fence is not directly valid JSON:
strategy 1 always fails on it. -/
theorem parseJson_fence_none (x : List Char) :
    parseJson (String.mk ("```json\n".data ++ x)) = none :=
  rfl

/-- The greedy brace scan of a fenced JSON object returns exactly the
object text: the fence markers contain no braces. -/
theorem braceSpan_fenced (mid : List Char) :
    braceSpan ("```json\n".data ++ (('{' :: mid ++ ['}']) ++ "\n```".data)) =
      some ('{' :: mid ++ ['}']) := by
  unfold braceSpan
  have ht : ("```json\n".data ++ (('{' :: mid ++ ['}']) ++ "\n```".data)).dropWhile (· ≠ '{') =
      ('{' :: mid ++ ['}']) ++ "\n```".data := by
    rw [dropWhile_append_all _ _ _ (by decide)]
    show List.dropWhile _ ('{' :: ((mid ++ ['}']) ++ "\n```".data)) = _
    rw [List.dropWhile_cons, if_neg (by decide)]
    simp
  rw [ht]
  have hrev : (('{' :: mid ++ ['}']) ++ "\n```".data).reverse =
      ['`', '`', '`', '\n'] ++ (('}' :: (mid.reverse ++ ['{']))) := by
    simp
  rw [hrev, dropWhile_append_all _ _ _ (by decide), List.dropWhile_cons, if_neg (by decide),
    List.reverse_cons, List.reverse_append, List.reverse_reverse]
  cases mid with
  | nil => rfl
  | cons m ms => rfl

/-- C7: the reply parser applies exactly three fallback strategies in
order.  Part 1: every reply that is a valid JSON object wrapped in
Markdown code fences parses successfully (the greedy brace scan recovers
the object).  Part 2: when all three strategies fail, the raised
`ValueError` is caught into a `success=false` record and the retry
wrapper performs no retry (one attempt, one remote call): a hard,
non-retried failure. -/
theorem extract_json_three_strategies :
    (∀ (mid : List Char) (j : Json),
      parseJson (String.mk ('{' :: mid ++ ['}'])) = some j →
      extract_json_from_string
        (String.mk ("```json\n".data ++ (('{' :: mid ++ ['}']) ++ "\n```".data))) =
        Except.ok j) ∧
    (∀ (s raw sf : String),
      parseJson s = none →
      (∀ span, braceSpan s.data = some span → parseJson (String.mk span) = none) →
      parseJson (String.mk (pyStripList (stripFences s.data))) = none →
      pyStrip raw ≠ "" →
      extract_json_from_string s = Except.error jsonParseFailureMsg ∧
      generate_async (fun _ => Except.ok (Json.str s)) raw sf =
        (create_error_response jsonParseFailureMsg, 1, 1)) := by
  constructor
  · intro mid j hp
    unfold extract_json_from_string
    rw [parseJson_fence_none]
    have hd : (String.mk ("```json\n".data ++ (('{' :: mid ++ ['}']) ++ "\n```".data))).data =
        "```json\n".data ++ (('{' :: mid ++ ['}']) ++ "\n```".data) := rfl
    rw [hd, braceSpan_fenced]
    show (match parseJson (String.mk ('{' :: mid ++ ['}'])) with
      | some j => Except.ok j
      | none =>
        fenceStrategy (String.mk ("```json\n".data ++ (('{' :: mid ++ ['}']) ++ "\n```".data)))) =
      Except.ok j
    rw [hp]
  · intro s raw sf h1 h2 h3 h4
    have hx : extract_json_from_string s = Except.error jsonParseFailureMsg := by
      unfold extract_json_from_string
      rw [h1]
      cases hb : braceSpan s.data with
      | some span =>
        show (match parseJson (String.mk span) with
          | some j => Except.ok j
          | none => fenceStrategy s) = Except.error jsonParseFailureMsg
        rw [h2 span hb]
        show fenceStrategy s = Except.error jsonParseFailureMsg
        unfold fenceStrategy
        rw [h3]
      | none =>
        show fenceStrategy s = Except.error jsonParseFailureMsg
        unfold fenceStrategy
        rw [h3]
    have hpx : parse_and_validate_response (Json.str s) sf =
        Except.error jsonParseFailureMsg := by
      show (match extract_json_from_string s with
        | Except.ok r => validateStage r sf
        | Except.error e => Except.error e) = Except.error jsonParseFailureMsg
      rw [hx]
    have hr : raw ≠ "" := by
      intro he
      exact h4 (by rw [he]; rfl)
    have hemp : ¬(raw = "" ∨ pyStrip raw = "") := by
      rintro (ha | hb)
      · exact hr ha
      · exact h4 hb
    have hgs : generate_sync (fun _ => Except.ok (Json.str s)) raw sf =
        (create_error_response jsonParseFailureMsg, 1) := by
      unfold generate_sync
      rw [if_neg hemp]
      show (match parse_and_validate_response (Json.str s) sf with
            | Except.ok record => (record, 1)
            | Except.error e => (create_error_response e, 1)) = _
      rw [hpx]
    refine ⟨hx, ?_⟩
    have ha : generate_async (fun _ => Except.ok (Json.str s)) raw sf =
        ((generate_sync (fun _ => Except.ok (Json.str s)) raw sf).1, 1,
          (generate_sync (fun _ => Except.ok (Json.str s)) raw sf).2) := rfl
    rw [ha, hgs]

/-- Witness for C7: a concrete fenced JSON object parses via the brace
scan, and a reply failing all three strategies surfaces as a
non-retried error record. -/
theorem extract_json_three_strategies_witness :
    extract_json_from_string
      (String.mk ("```json\n".data ++ (('{' :: "\"a\": 1".data ++ ['}']) ++ "\n```".data))) =
      Except.ok (Json.obj [("a", Json.num 1)]) ∧
    extract_json_from_string "no json at all" = Except.error jsonParseFailureMsg ∧
    generate_async (fun _ => Except.ok (Json.str "no json at all")) "text" "f.txt" =
      (create_error_response jsonParseFailureMsg, 1, 1) :=
  ⟨extract_json_three_strategies.1 "\"a\": 1".data (Json.obj [("a", Json.num 1)]) rfl,
   (extract_json_three_strategies.2 "no json at all" "text" "f.txt" rfl
      (fun span h => nomatch h) rfl (by decide)).1,
   (extract_json_three_strategies.2 "no json at all" "text" "f.txt" rfl
      (fun span h => nomatch h) rfl (by decide)).2⟩

/-! ### C8: fail-fast file validation -/

/-- C8 counterexample: an oversized file with an unsupported extension is
rejected with `FileTooLarge`, NOT the `UnsupportedFormat` error the claim
promises for every unsupported-extension file — the size check runs
first. -/
theorem validate_oversized_unsupported_counterexample :
    pathSuffixLower "big.xyz" ∉ supported_extensions true ∧
    validateFile true (10 * 1024 * 1024)
      { name := "big.xyz", size := 10 * 1024 * 1024 + 1, onDisk := true, readable := true } =
      some FileErr.fileTooLarge ∧
    validateFile true (10 * 1024 * 1024)
      { name := "big.xyz", size := 10 * 1024 * 1024 + 1, onDisk := true, readable := true } ≠
      some FileErr.unsupportedType := by
  refine ⟨by decide, by decide, by decide⟩

/-- C8 (amended): validation fails fast before any parse attempt — an
existing, within-limit file with an unsupported extension gets the typed
`UnsupportedFormat` error, an existing oversized file gets `FileTooLarge`
(this check precedes the extension check, so an oversized unsupported
file reports `FileTooLarge`; see the counterexample) — the failure is
returned as a recorded `success=false` result with no parse attempted;
and the harvesting loop appends exactly one entry per attachment
whatever each extraction returns, so a per-file failure never blocks the
other attachments. -/
theorem file_validation_fail_fast :
    (∀ (hasPy : Bool) (maxB : Nat) (pb : FileInfo → FPResult) (f : FileInfo),
      f.onDisk = true → f.size ≤ maxB →
      pathSuffixLower f.name ∉ supported_extensions hasPy →
      validateFile hasPy maxB f = some FileErr.unsupportedType ∧
      parse_file_async hasPy maxB pb f =
        ({ success := false, verror := some FileErr.unsupportedType, raw_text := "" }, false)) ∧
    (∀ (hasPy : Bool) (maxB : Nat) (pb : FileInfo → FPResult) (f : FileInfo),
      f.onDisk = true → maxB < f.size →
      validateFile hasPy maxB f = some FileErr.fileTooLarge ∧
      parse_file_async hasPy maxB pb f =
        ({ success := false, verror := some FileErr.fileTooLarge, raw_text := "" }, false)) ∧
    (∀ (extract : String → String → String) (indentId : String) (store : Option Summary)
      (now : String) (ps : List (EmailMsg × Attachment)) (st : RunSt),
      (runPairsFold extract indentId store now ps st).quotes.length =
        st.quotes.length + ps.length) := by
  refine ⟨?_, ?_, ?_⟩
  · intro hasPy maxB pb f h1 h2 h3
    have hv : validateFile hasPy maxB f = some FileErr.unsupportedType := by
      unfold validateFile
      rw [if_neg (by simp [h1]), if_neg (by omega), if_neg h3]
    exact ⟨hv, by unfold parse_file_async; rw [hv]⟩
  · intro hasPy maxB pb f h1 h2
    have hv : validateFile hasPy maxB f = some FileErr.fileTooLarge := by
      unfold validateFile
      rw [if_neg (by simp [h1]), if_pos h2]
    exact ⟨hv, by unfold parse_file_async; rw [hv]⟩
  · intro extract indentId store now ps st
    have hk := runPairsFold_keys extract indentId store now ps st
    have := congrArg List.length hk
    simpa using this

/-- Witness for C8: a small unsupported file gets `UnsupportedFormat`, an
oversized supported file gets `FileTooLarge`, neither is parsed. -/
theorem file_validation_fail_fast_witness :
    (validateFile true 10 { name := "a.xyz", size := 5, onDisk := true, readable := true } =
      some FileErr.unsupportedType ∧
    parse_file_async true 10 (fun _ => { success := true, verror := none, raw_text := "t" })
      { name := "a.xyz", size := 5, onDisk := true, readable := true } =
      ({ success := false, verror := some FileErr.unsupportedType, raw_text := "" }, false)) ∧
    (validateFile true 10 { name := "a.txt", size := 11, onDisk := true, readable := true } =
      some FileErr.fileTooLarge ∧
    parse_file_async true 10 (fun _ => { success := true, verror := none, raw_text := "t" })
      { name := "a.txt", size := 11, onDisk := true, readable := true } =
      ({ success := false, verror := some FileErr.fileTooLarge, raw_text := "" }, false)) :=
  ⟨file_validation_fail_fast.1 true 10
      (fun _ => { success := true, verror := none, raw_text := "t" })
      { name := "a.xyz", size := 5, onDisk := true, readable := true } rfl (by decide) (by decide),
   file_validation_fail_fast.2.1 true 10
      (fun _ => { success := true, verror := none, raw_text := "t" })
      { name := "a.txt", size := 11, onDisk := true, readable := true } rfl (by decide)⟩

/-! ### C10: `.doc` is harvested but never extractable -/

/-- C10 counterexample: an OVERSIZED `.doc` file is rejected with
`FileTooLarge`, not the unsupported-file-type error the claim promises
for every `.doc` attachment (the extraction still fails, but with a
different typed error). -/
theorem doc_oversized_counterexample :
    ".doc" ∈ quote_file_extensions ∧
    pathSuffixLower "quote.doc" = ".doc" ∧
    validateFile true (10 * 1024 * 1024)
      { name := "quote.doc", size := 10 * 1024 * 1024 + 1, onDisk := true, readable := true } =
      some FileErr.fileTooLarge ∧
    validateFile true (10 * 1024 * 1024)
      { name := "quote.doc", size := 10 * 1024 * 1024 + 1, onDisk := true, readable := true } ≠
      some FileErr.unsupportedType ∧
    (parse_file_async true (10 * 1024 * 1024)
      (fun _ => { success := true, verror := none, raw_text := "t" })
      { name := "quote.doc", size := 10 * 1024 * 1024 + 1, onDisk := true,
        readable := true }).1.success = false := by
  refine ⟨by decide, by decide, by decide, by decide, by decide⟩

/-- C10 (amended): the harvester's attachment filter accepts `.doc`, but
no configuration of the Format-Aware Text Extractor supports it — so a
`.doc` file never reaches a format parser, its extraction result always
has `success=false`, the structured-field generator is never invoked for
it (no successful ExtractedRecord), and whenever the saved file exists
and is within the size limit the failure is specifically the
unsupported-file-type error (an oversized or missing `.doc` fails with
its size or existence error instead; see the counterexample). -/
theorem doc_attachments_never_extract :
    ".doc" ∈ quote_file_extensions ∧
    (∀ b, ".doc" ∉ supported_extensions b) ∧
    (∀ (hasPy : Bool) (maxB : Nat) (pb : FileInfo → FPResult) (f : FileInfo)
      (genSuccess : Bool),
      pathSuffixLower f.name = ".doc" →
      (parse_file_async hasPy maxB pb f).1.success = false ∧
      (parse_file_async hasPy maxB pb f).2 = false ∧
      process_quote_file_model genSuccess (parse_file_async hasPy maxB pb f).1 =
        (false, false) ∧
      (f.onDisk = true → f.size ≤ maxB →
        validateFile hasPy maxB f = some FileErr.unsupportedType)) := by
  refine ⟨by decide, by decide, ?_⟩
  intro hasPy maxB pb f genSuccess hsuf
  have hmem : pathSuffixLower f.name ∉ supported_extensions hasPy := by
    rw [hsuf]
    cases hasPy <;> decide
  have hval : ∃ e, validateFile hasPy maxB f = some e := by
    unfold validateFile
    by_cases h1 : f.onDisk = false
    · exact ⟨_, by rw [if_pos h1]⟩
    · rw [if_neg h1]
      by_cases h2 : maxB < f.size
      · exact ⟨_, by rw [if_pos h2]⟩
      · rw [if_neg h2, if_neg hmem]
        exact ⟨_, rfl⟩
  obtain ⟨e, he⟩ := hval
  have hp : parse_file_async hasPy maxB pb f =
      ({ success := false, verror := some e, raw_text := "" }, false) := by
    unfold parse_file_async
    rw [he]
  refine ⟨by rw [hp], by rw [hp], by rw [hp]; rfl, ?_⟩
  intro hod hsz
  unfold validateFile
  rw [if_neg (by simp [hod]), if_neg (by omega), if_neg hmem]

/-- Witness for C10: a normal-sized `.doc` file is accepted by the
harvester's filter but fails extraction with the unsupported-file-type
error, and the generator is never invoked. -/
theorem doc_attachments_never_extract_witness :
    (parse_file_async true 10 (fun _ => { success := true, verror := none, raw_text := "t" })
      { name := "q.doc", size := 5, onDisk := true, readable := true }).1.success = false ∧
    process_quote_file_model true
      (parse_file_async true 10 (fun _ => { success := true, verror := none, raw_text := "t" })
        { name := "q.doc", size := 5, onDisk := true, readable := true }).1 = (false, false) ∧
    validateFile true 10 { name := "q.doc", size := 5, onDisk := true, readable := true } =
      some FileErr.unsupportedType :=
  ⟨(doc_attachments_never_extract.2.2 true 10
      (fun _ => { success := true, verror := none, raw_text := "t" })
      { name := "q.doc", size := 5, onDisk := true, readable := true } true (by decide)).1,
   (doc_attachments_never_extract.2.2 true 10
      (fun _ => { success := true, verror := none, raw_text := "t" })
      { name := "q.doc", size := 5, onDisk := true, readable := true } true (by decide)).2.2.1,
   (doc_attachments_never_extract.2.2 true 10
      (fun _ => { success := true, verror := none, raw_text := "t" })
      { name := "q.doc", size := 5, onDisk := true, readable := true } true
      (by decide)).2.2.2 rfl (by decide)⟩

end StreamlitLegacy
